import Mathlib

/-!
Shallow embedding of the CoinCollector arcade game (source.py) and proofs
about its simulation core.  Sprite dimensions and the window size are
construction-time inputs supplied by the environment (image loader /
display), so they are carried in a `Config`.  All randomness (the uniform
draw of `random()`, the result of `randint`) and all timing (the 1000 ms
spawn window test) are external inputs, passed explicitly per frame.
-/

namespace CoinCollector

/-- Construction-time configuration: window size (`display_width`,
`display_height`), sprite dimensions reported by the image loader, and the
base vertical velocity `velocity_y` (set to 1 in `__init__`). -/
structure Config where
  displayWidth : ℤ
  displayHeight : ℤ
  robotW : ℤ
  robotH : ℤ
  coinW : ℤ
  coinH : ℤ
  monsterW : ℤ
  monsterH : ℤ
  velocityY : ℤ
deriving DecidableEq

/-- The mutable state of the `CoinCollector` object: player position and
movement flags, the two falling-object lists (topleft positions, in
insertion order), score, missed-coin counter and remaining lives.
`player_lives` is an integer because the source decrements it with no
lower clamp. -/
structure GameState where
  playerX : ℤ
  playerY : ℤ
  toLeft : Bool
  toRight : Bool
  coins : List (ℤ × ℤ)
  monsters : List (ℤ × ℤ)
  score : ℕ
  missedCoins : ℕ
  playerLives : ℤ
deriving DecidableEq

/-- pygame `Rect.colliderect` for two axis-aligned rectangles given by
topleft corner and positive width/height: overlap is strict on every edge
(touching edges do not collide). -/
def colliderect (ax ay aw ah bx bY bw bh : ℤ) : Prop :=
  ax < bx + bw ∧ ax + aw > bx ∧ ay < bY + bh ∧ ay + ah > bY

instance instDecColliderect (ax ay aw ah bx bY bw bh : ℤ) :
    Decidable (colliderect ax ay aw ah bx bY bw bh) :=
  inferInstanceAs (Decidable (ax < bx + bw ∧ ax + aw > bx ∧ ay < bY + bh ∧ ay + ah > bY))

/-- `reset_player_position`: player to the left corner, bottom-aligned,
both movement flags cleared. -/
def reset_player_position (cfg : Config) (s : GameState) : GameState :=
  { s with playerX := 0, playerY := cfg.displayHeight - cfg.robotH,
           toLeft := false, toRight := false }

/-- `new_game`: reset player position, clear both object lists, score 0,
three lives, zero missed coins. -/
def new_game (cfg : Config) (s : GameState) : GameState :=
  let s1 := reset_player_position cfg s
  { s1 with monsters := [], coins := [], score := 0, playerLives := 3, missedCoins := 0 }

/-- State right after `__init__` (which calls `new_game`). -/
def initState (cfg : Config) : GameState :=
  new_game cfg ⟨0, 0, false, false, [], [], 0, 0, 0⟩

/-- `move_player`: two sequential conditional moves of 2 px; the bound is
checked on the current position before each move, and the second test
reads the position already updated by the first. -/
def move_player (cfg : Config) (s : GameState) : GameState :=
  let s1 := if s.toRight ∧ s.playerX + cfg.robotW < cfg.displayWidth
            then { s with playerX := s.playerX + 2 } else s
  if s1.toLeft ∧ s1.playerX > 0 then { s1 with playerX := s1.playerX - 2 } else s1

/-- Vertical speed applied to an object on its update: coins use the
constant `velocity_y`, monsters use `velocity_y * 2 + missed_coins // 2`
(Python floor division on a non-negative counter). -/
def objectSpeed (cfg : Config) (isCoin : Bool) (missed : ℕ) : ℤ :=
  if isCoin then cfg.velocityY else cfg.velocityY * 2 + ((missed / 2 : ℕ) : ℤ)

/-- The body of `move_objects`' `for i, (x, y) in enumerate(objects)` loop
with its in-place `objects.pop(i)`.  Python's list iterator keeps its own
index, so after a `pop(i)` the element that slid into slot `i` is never
visited: the `skip` flag is true exactly when the previous element was
popped, and that element is carried over unprocessed.  Visiting an element
checks, in source order: the off-screen test `y - objH >= displayHeight`
(remove, counting a missed coin when the pass is over coins), then
`colliderect` against the robot (remove; coins add score, monsters reset
the player position and subtract one life), else the position update
`y += speed` with the speed recomputed from the current state. -/
def move_objects_aux (cfg : Config) (isCoin : Bool) (objW objH : ℤ) :
    Bool → GameState → List (ℤ × ℤ) → GameState × List (ℤ × ℤ)
  | _, s, [] => (s, [])
  | true, s, o :: rest =>
      let p := move_objects_aux cfg isCoin objW objH false s rest
      (p.1, o :: p.2)
  | false, s, (x, y) :: rest =>
      if cfg.displayHeight ≤ y - objH then
        let s1 := if isCoin then { s with missedCoins := s.missedCoins + 1 } else s
        move_objects_aux cfg isCoin objW objH true s1 rest
      else if colliderect x y objW objH s.playerX s.playerY cfg.robotW cfg.robotH then
        let s1 := if isCoin then { s with score := s.score + 1 }
                  else { reset_player_position cfg s with playerLives := s.playerLives - 1 }
        move_objects_aux cfg isCoin objW objH true s1 rest
      else
        let p := move_objects_aux cfg isCoin objW objH false s rest
        (p.1, (x, y + objectSpeed cfg isCoin s.missedCoins) :: p.2)

/-- `move_objects(self.coins)`: there `objects == self.coins` always holds,
so the pass runs in coin mode with the coin sprite's dimensions. -/
def move_coins (cfg : Config) (s : GameState) : GameState :=
  let p := move_objects_aux cfg true cfg.coinW cfg.coinH false s s.coins
  { p.1 with coins := p.2 }

/-- `move_objects(self.monsters)`: the source decides the mode by the value
comparison `objects == self.coins`, so when the two lists happen to be
equal the monster pass runs in coin mode; this quirk is reproduced. -/
def move_monsters (cfg : Config) (s : GameState) : GameState :=
  let isC : Bool := decide (s.monsters = s.coins)
  let objW := if isC then cfg.coinW else cfg.monsterW
  let objH := if isC then cfg.coinH else cfg.monsterH
  let p := move_objects_aux cfg isC objW objH false s s.monsters
  { p.1 with monsters := p.2 }

/-- `generate_image`: with the uniform draw `draw` of `random()` at most
`prob`, append one object at `(xr, -objH)` where `xr` is the value produced
by `randint(0, display_width - width)`; otherwise leave the list alone. -/
def generate_image (positions : List (ℤ × ℤ)) (objH : ℤ) (draw : ℚ) (xr : ℤ)
    (prob : ℚ) : List (ℤ × ℤ) :=
  if draw ≤ prob then positions ++ [(xr, -objH)] else positions

/-- Keyboard events the simulation core reacts to (quit events terminate
the process and are not part of the state transition). -/
inductive Ev
  | ldown
  | rdown
  | lup
  | rup
  | f1
deriving DecidableEq

/-- One event of `examine_events`: arrow keys set or clear the movement
flags, F1 starts a new game immediately. -/
def handle_event (cfg : Config) (s : GameState) : Ev → GameState
  | Ev.ldown => { s with toLeft := true }
  | Ev.rdown => { s with toRight := true }
  | Ev.lup => { s with toLeft := false }
  | Ev.rup => { s with toRight := false }
  | Ev.f1 => new_game cfg s

/-- `examine_events`: process the frame's event queue in order. -/
def examine_events (cfg : Config) (s : GameState) (evs : List Ev) : GameState :=
  evs.foldl (handle_event cfg) s

/-- `game_over`: the player has exactly zero lives. -/
def game_over (s : GameState) : Bool :=
  decide (s.playerLives = 0)

/-- Per-frame external inputs: the event queue, whether the 1000 ms spawn
window test `get_ticks() - time > 1000` passed, and the random draws used
by the two `generate_image` calls (uniform draw and `randint` result for
the coin, then for the monster). -/
structure FrameInput where
  events : List Ev
  spawnTick : Bool
  coinDraw : ℚ
  coinX : ℤ
  monsterDraw : ℚ
  monsterX : ℤ

/-- The two `generate_image` calls of a spawn frame: a coin with
probability 1/4, then a monster with probability 1/2.  Only the two object
lists are written. -/
def spawn_phase (cfg : Config) (s : GameState) (inp : FrameInput) : GameState :=
  { s with
    coins := generate_image s.coins cfg.coinH inp.coinDraw inp.coinX (mkRat 1 4),
    monsters := generate_image s.monsters cfg.monsterH inp.monsterDraw inp.monsterX (mkRat 1 2) }

/-- One iteration of `game_loop`: process events; if the game is not over,
possibly spawn a coin (probability 1/4) and a monster (probability 1/2),
move the player, then advance coins and monsters.  Rendering is pure
output and is not part of the state. -/
def step (cfg : Config) (s : GameState) (inp : FrameInput) : GameState :=
  let s1 := examine_events cfg s inp.events
  if game_over s1 then s1
  else
    let s2 := if inp.spawnTick then spawn_phase cfg s1 inp else s1
    let s3 := move_player cfg s2
    let s4 := move_coins cfg s3
    move_monsters cfg s4

/-- Run the game loop from the freshly constructed state over a list of
per-frame inputs. -/
def runGame (cfg : Config) (inputs : List FrameInput) : GameState :=
  inputs.foldl (step cfg) (initState cfg)

/-- The operations that can change the player's x coordinate: a
`move_player` call with the movement flags in an arbitrary state, or a
position reset (new game / monster hit). -/
inductive POp
  | move (l r : Bool)
  | reset
deriving DecidableEq

/-- Apply one player operation. -/
def applyPOp (cfg : Config) (s : GameState) : POp → GameState
  | POp.move l r => move_player cfg { s with toLeft := l, toRight := r }
  | POp.reset => reset_player_position cfg s

/-- All states of the player-position subsystem reachable from a fresh
game by any sequence of flag settings, moves and resets. -/
def runPlayerOps (cfg : Config) (ops : List POp) : GameState :=
  ops.foldl (applyPOp cfg) (initState cfg)

/-- Default-size configuration of the spec's scenarios: 640 × 480 window,
40 × 60 robot, 20 × 20 coin, 32 × 32 monster, base velocity 1. -/
def cfg640 : Config :=
  ⟨640, 480, 40, 60, 20, 20, 32, 32, 1⟩

/-- A game state of the default configuration holding a single coin at
(600, -20), player freshly reset. -/
def coinDropState : GameState :=
  ⟨0, 420, false, false, [(600, -20)], [], 0, 0, 3⟩

/-- A game state of the default configuration holding two consecutive
coins both fully past the bottom of the screen. -/
def twoLowCoinsState : GameState :=
  ⟨0, 420, false, false, [(0, 510), (40, 510)], [], 0, 0, 3⟩

/-- A game state of the default configuration holding one coin whose
bottom edge (500) is past the bottom of the screen (480). -/
def oneLowCoinState : GameState :=
  ⟨0, 420, false, false, [(600, 480)], [], 0, 0, 3⟩

/-- A 13-wide configuration with a 4-wide robot: screenWidth − robotWidth
is odd (9), and the right-move bound check `x + 4 < 13` still passes at
x = 8. -/
def cfgOddGap : Config :=
  ⟨13, 480, 4, 60, 20, 20, 32, 32, 1⟩

/-- Holding the right arrow for 5 frames. -/
def rightOps : List POp :=
  List.replicate 5 (POp.move false true)

/-- Intermediate states of the falling-coin scenario: the coin of
`coinDropState` after 150, 300, 450, 500 and 520 advances. -/
def fall150State : GameState :=
  ⟨0, 420, false, false, [(600, 130)], [], 0, 0, 3⟩

/-- The falling coin after 300 advances. -/
def fall300State : GameState :=
  ⟨0, 420, false, false, [(600, 280)], [], 0, 0, 3⟩

/-- The falling coin after 450 advances. -/
def fall450State : GameState :=
  ⟨0, 420, false, false, [(600, 430)], [], 0, 0, 3⟩

/-- The falling coin after 500 advances: bottom edge at 500, still there. -/
def fall500State : GameState :=
  ⟨0, 420, false, false, [(600, 480)], [], 0, 0, 3⟩

/-- The falling coin after 520 advances: at the removal threshold. -/
def fall520State : GameState :=
  ⟨0, 420, false, false, [(600, 500)], [], 0, 0, 3⟩

/-- A tiny configuration used to exercise multiple monster hits in a
single frame: 20 × 10 window, 2 × 6 robot, 2 × 2 coin and monster. -/
def cfgTiny : Config :=
  ⟨20, 10, 2, 6, 2, 2, 2, 2, 1⟩

/-- A 14-frame input script for `cfgTiny`: two monsters hit the player one
second apart (lives 3 → 2 → 1), then three monsters are spawned at x = 4,
x = 18 and x = 0; the player steps right to x = 4 just as the first and
the third of them are inside the collision zone, so both hit in the same
`move_objects` pass (the second is skipped by the pop-during-iteration). -/
def doubleHitScript : List FrameInput :=
  [⟨[], true, 1, 0, 0, 0⟩,
   ⟨[], false, 1, 0, 1, 0⟩,
   ⟨[], false, 1, 0, 1, 0⟩,
   ⟨[], false, 1, 0, 1, 0⟩,
   ⟨[], true, 1, 0, 0, 0⟩,
   ⟨[], false, 1, 0, 1, 0⟩,
   ⟨[], false, 1, 0, 1, 0⟩,
   ⟨[], false, 1, 0, 1, 0⟩,
   ⟨[Ev.rdown], true, 1, 0, 0, 4⟩,
   ⟨[Ev.rup], true, 1, 0, 0, 18⟩,
   ⟨[], true, 1, 0, 0, 0⟩,
   ⟨[], false, 1, 0, 1, 0⟩,
   ⟨[], false, 1, 0, 1, 0⟩,
   ⟨[Ev.rdown], false, 1, 0, 1, 0⟩]

/-- Inductive invariant of the player's x coordinate: reachable values are
non-negative, even (the player starts at 0 and moves in steps of 2), and
either 0 or at most `displayWidth - robotW + 1` (one pre-move bound check
step past the right margin). -/
def PlayerXInv (cfg : Config) (x : ℤ) : Prop :=
  0 ≤ x ∧ x % 2 = 0 ∧ (x = 0 ∨ x ≤ cfg.displayWidth - cfg.robotW + 1)

/-- A game-over state of the tiny configuration with nonempty object lists
and nonzero counters. -/
def frozenState : GameState :=
  ⟨5, 4, false, false, [(1, 2)], [(3, 4)], 7, 9, 0⟩

/-- Two frames of input (movement keys, a spawn window, successful draws)
fed to a game-over state. -/
def frozenScript : List FrameInput :=
  [⟨[Ev.ldown], true, 0, 0, 0, 0⟩, ⟨[Ev.rdown], false, 1, 0, 1, 0⟩]

/-- A state of the default configuration with five missed coins and one
falling object at (100, 50), away from the player. -/
def midairState : GameState :=
  ⟨0, 420, false, false, [], [(100, 50)], 0, 5, 3⟩

/-- A state of the tiny configuration on its last life, player at x = 4,
with three falling monsters: the first overlaps the player, the third
overlaps only the reset position at x = 0. -/
def hitState : GameState :=
  ⟨4, 4, false, true, [], [(4, 8), (18, 6), (0, 4)], 0, 0, 1⟩

/-- C7: invoking new-game from any prior state sets lives to 3, score and
missedCoins to 0, empties both object lists, and puts the player at
(0, screenHeight - robotHeight) with both movement flags cleared. -/
theorem C7_new_game (cfg : Config) (s : GameState) :
    new_game cfg s =
      { playerX := 0, playerY := cfg.displayHeight - cfg.robotH,
        toLeft := false, toRight := false, coins := [], monsters := [],
        score := 0, missedCoins := 0, playerLives := 3 } :=
  rfl

/-- C1: failing input for the no-skip property.  Two consecutive coins both
fully past the bottom edge (y = 510, bottom edge 530 ≥ 480, and also past
the code's own removal threshold 510 - 20 ≥ 480): one `move_objects` pass
removes only the first, reports a missed delta of 1 instead of 2, and
silently retains the second coin unvisited. -/
theorem C1_skip_eval :
    (move_coins cfg640 twoLowCoinsState).coins = [(40, 510)] ∧
    (move_coins cfg640 twoLowCoinsState).missedCoins = 1 := by
  decide

/-- C2: counterexample.  A coin at y = 480 has its bottom edge (500) past
screenHeight (480), yet the pass does not remove it: it survives the
update at y = 481, outside the claimed interval [-height, screenHeight). -/
theorem C2_counterexample :
    (move_coins cfg640 oneLowCoinState).coins = [(600, 481)] ∧
    ¬ (-cfg640.coinH ≤ (481 : ℤ) ∧ (481 : ℤ) < cfg640.displayHeight) := by
  decide

/-- C3: counterexample.  With a 13-wide screen and a 4-wide robot, holding
right for 5 frames from a fresh game drives the player to x = 10,
violating x ≤ screenWidth - robotWidth = 9. -/
theorem C3_counterexample :
    (runPlayerOps cfgOddGap rightOps).playerX = 10 ∧
    ¬ (runPlayerOps cfgOddGap rightOps).playerX ≤
        cfgOddGap.displayWidth - cfgOddGap.robotW := by
  decide

set_option maxRecDepth 40000 in
/-- Advancing the dropped coin 150 times lowers it by 150 pixels. -/
theorem fall_chunk1 : (move_coins cfg640)^[150] coinDropState = fall150State := by
  decide

set_option maxRecDepth 40000 in
/-- Advancing 150 more times reaches y = 280. -/
theorem fall_chunk2 : (move_coins cfg640)^[150] fall150State = fall300State := by
  decide

set_option maxRecDepth 40000 in
/-- Advancing 150 more times reaches y = 430. -/
theorem fall_chunk3 : (move_coins cfg640)^[150] fall300State = fall450State := by
  decide

set_option maxRecDepth 40000 in
/-- Fifty more advances reach y = 480: bottom edge at 500, coin kept. -/
theorem fall_chunk_to500 : (move_coins cfg640)^[50] fall450State = fall500State := by
  decide

set_option maxRecDepth 40000 in
/-- Seventy more advances after step 450 reach y = 500. -/
theorem fall_chunk_to520 : (move_coins cfg640)^[70] fall450State = fall520State := by
  decide

/-- Composition: the dropped coin is at y = 480 after 500 advances. -/
theorem fall500 : (move_coins cfg640)^[500] coinDropState = fall500State := by
  rw [show (500 : ℕ) = 50 + (150 + (150 + 150)) from rfl,
    Function.iterate_add_apply, Function.iterate_add_apply,
    Function.iterate_add_apply, fall_chunk1, fall_chunk2, fall_chunk3,
    fall_chunk_to500]

/-- Composition: the dropped coin is at y = 500 after 520 advances. -/
theorem fall520 : (move_coins cfg640)^[520] coinDropState = fall520State := by
  rw [show (520 : ℕ) = 70 + (150 + (150 + 150)) from rfl,
    Function.iterate_add_apply, Function.iterate_add_apply,
    Function.iterate_add_apply, fall_chunk1, fall_chunk2, fall_chunk3,
    fall_chunk_to520]

/-- C4: counterexample.  The coin spawned at y = -20 with speed 1 on the
480-high screen is still present (at y = 480, with no missed coin counted)
after 500 advance steps, contradicting removal at exactly 500 steps. -/
theorem C4_counterexample :
    ((move_coins cfg640)^[500] coinDropState).coins = [(600, 480)] ∧
    ((move_coins cfg640)^[500] coinDropState).missedCoins = 0 := by
  rw [fall500]
  exact ⟨rfl, rfl⟩

/-- C4 (amended): the code removes a coin only once y - height ≥
screenHeight, i.e. at y = 500, so the coin spawned at y = -20 with speed 1
is removed after exactly 521 steps: it is still present after 520 steps
and gone after 521, with missedCoins incremented by exactly 1 and the
score untouched. -/
theorem C4_amended_thm :
    ((move_coins cfg640)^[520] coinDropState).coins = [(600, 500)] ∧
    ((move_coins cfg640)^[521] coinDropState).coins = [] ∧
    ((move_coins cfg640)^[521] coinDropState).missedCoins = 1 ∧
    ((move_coins cfg640)^[521] coinDropState).score = 0 := by
  have h521 : (move_coins cfg640)^[521] coinDropState =
      move_coins cfg640 fall520State := by
    rw [Function.iterate_succ_apply', fall520]
  refine ⟨by rw [fall520]; rfl, ?_, ?_, ?_⟩ <;> rw [h521] <;> decide

set_option maxRecDepth 40000 in
/-- C5: failing input.  Running the 14-frame script from a fresh game on
the tiny configuration ends with playerLives = -1: in the last frame two
monsters hit the player inside one `move_objects` pass, so lives is
decremented from 0 to -1 — and `game_over` is then false even though the
player has lost all lives, contradicting the code's own description of
`game_over`. -/
theorem C5_negative_lives_eval :
    (runGame cfgTiny doubleHitScript).playerLives = -1 ∧
    game_over (runGame cfgTiny doubleHitScript) = false := by
  decide

/-- Unfolding: a pass over the empty list returns the state unchanged. -/
theorem aux_nil_fst (cfg : Config) (isC : Bool) (objW objH : ℤ) (sk : Bool)
    (s : GameState) : (move_objects_aux cfg isC objW objH sk s []).1 = s := by
  cases sk <;> rfl

/-- Unfolding: a pass over the empty list returns the empty list. -/
theorem aux_nil_snd (cfg : Config) (isC : Bool) (objW objH : ℤ) (sk : Bool)
    (s : GameState) : (move_objects_aux cfg isC objW objH sk s []).2 = [] := by
  cases sk <;> rfl

/-- Unfolding: in skip mode the head is carried over unprocessed and the
state comes from the rest of the pass. -/
theorem aux_skip_fst (cfg : Config) (isC : Bool) (objW objH : ℤ) (s : GameState)
    (o : ℤ × ℤ) (rest : List (ℤ × ℤ)) :
    (move_objects_aux cfg isC objW objH true s (o :: rest)).1 =
      (move_objects_aux cfg isC objW objH false s rest).1 :=
  rfl

/-- Unfolding: in skip mode the head is retained in front of the rest of
the pass's output. -/
theorem aux_skip_snd (cfg : Config) (isC : Bool) (objW objH : ℤ) (s : GameState)
    (o : ℤ × ℤ) (rest : List (ℤ × ℤ)) :
    (move_objects_aux cfg isC objW objH true s (o :: rest)).2 =
      o :: (move_objects_aux cfg isC objW objH false s rest).2 :=
  rfl

/-- Unfolding: a visited object past the removal threshold is popped (with
the missed-coin count bumped on a coin pass) and the following element is
skipped. -/
theorem aux_off (cfg : Config) (isC : Bool) (objW objH x y : ℤ) (s : GameState)
    (rest : List (ℤ × ℤ)) (h : cfg.displayHeight ≤ y - objH) :
    move_objects_aux cfg isC objW objH false s ((x, y) :: rest) =
      move_objects_aux cfg isC objW objH true
        (if isC then { s with missedCoins := s.missedCoins + 1 } else s) rest := by
  simp only [move_objects_aux]
  rw [if_pos h]

/-- Unfolding: a visited object below the removal threshold that overlaps
the robot is popped, adding a score point on a coin pass and resetting the
player position and subtracting a life on a monster pass; the following
element is skipped. -/
theorem aux_hit (cfg : Config) (isC : Bool) (objW objH x y : ℤ) (s : GameState)
    (rest : List (ℤ × ℤ)) (h1 : ¬ cfg.displayHeight ≤ y - objH)
    (h2 : colliderect x y objW objH s.playerX s.playerY cfg.robotW cfg.robotH) :
    move_objects_aux cfg isC objW objH false s ((x, y) :: rest) =
      move_objects_aux cfg isC objW objH true
        (if isC then { s with score := s.score + 1 }
         else { reset_player_position cfg s with
                  playerLives := s.playerLives - 1 }) rest := by
  simp only [move_objects_aux]
  rw [if_neg h1, if_pos h2]

/-- Unfolding: a visited object that is neither removed nor colliding only
moves down; the state is untouched. -/
theorem aux_move_fst (cfg : Config) (isC : Bool) (objW objH x y : ℤ) (s : GameState)
    (rest : List (ℤ × ℤ)) (h1 : ¬ cfg.displayHeight ≤ y - objH)
    (h2 : ¬ colliderect x y objW objH s.playerX s.playerY cfg.robotW cfg.robotH) :
    (move_objects_aux cfg isC objW objH false s ((x, y) :: rest)).1 =
      (move_objects_aux cfg isC objW objH false s rest).1 := by
  simp only [move_objects_aux]
  rw [if_neg h1, if_neg h2]

/-- Unfolding: the moved object rejoins the output in front of the rest of
the pass's output, `speed` pixels lower. -/
theorem aux_move_snd (cfg : Config) (isC : Bool) (objW objH x y : ℤ) (s : GameState)
    (rest : List (ℤ × ℤ)) (h1 : ¬ cfg.displayHeight ≤ y - objH)
    (h2 : ¬ colliderect x y objW objH s.playerX s.playerY cfg.robotW cfg.robotH) :
    (move_objects_aux cfg isC objW objH false s ((x, y) :: rest)).2 =
      (x, y + objectSpeed cfg isC s.missedCoins) ::
        (move_objects_aux cfg isC objW objH false s rest).2 := by
  simp only [move_objects_aux]
  rw [if_neg h1, if_neg h2]

/-- Members surviving one `move_objects` pass either occur in the input
list unchanged (they were skipped by the pop-during-iteration) or were
moved once this pass and lie strictly below
`displayHeight + objH + speed`. -/
theorem aux_mem_bound (cfg : Config) (isC : Bool) (objW objH : ℤ) :
    ∀ (l : List (ℤ × ℤ)) (sk : Bool) (s : GameState),
      ∀ p ∈ (move_objects_aux cfg isC objW objH sk s l).2,
        p ∈ l ∨ p.2 < cfg.displayHeight + objH + objectSpeed cfg isC s.missedCoins := by
  intro l
  induction l with
  | nil =>
    intro sk s p hp
    rw [aux_nil_snd] at hp
    simp at hp
  | cons o rest ih =>
    intro sk s p hp
    cases sk with
    | true =>
      rw [aux_skip_snd] at hp
      rcases List.mem_cons.mp hp with h | h
      · exact Or.inl (h ▸ List.mem_cons_self o rest)
      · rcases ih false s p h with h1 | h1
        · exact Or.inl (List.mem_cons_of_mem o h1)
        · exact Or.inr h1
    | false =>
      obtain ⟨x, y⟩ := o
      by_cases h1 : cfg.displayHeight ≤ y - objH
      · rw [aux_off cfg isC objW objH x y s rest h1] at hp
        have hs : objectSpeed cfg isC
            ((if isC then { s with missedCoins := s.missedCoins + 1 } else s).missedCoins) =
            objectSpeed cfg isC s.missedCoins := by
          cases isC <;> simp [objectSpeed]
        rcases ih true _ p hp with h | h
        · exact Or.inl (List.mem_cons_of_mem _ h)
        · rw [hs] at h
          exact Or.inr h
      · by_cases h2 : colliderect x y objW objH s.playerX s.playerY cfg.robotW cfg.robotH
        · rw [aux_hit cfg isC objW objH x y s rest h1 h2] at hp
          have hs : objectSpeed cfg isC
              ((if isC then { s with score := s.score + 1 }
                else { reset_player_position cfg s with
                         playerLives := s.playerLives - 1 }).missedCoins) =
              objectSpeed cfg isC s.missedCoins := by
            cases isC <;> simp [objectSpeed, reset_player_position]
          rcases ih true _ p hp with h | h
          · exact Or.inl (List.mem_cons_of_mem _ h)
          · rw [hs] at h
            exact Or.inr h
        · rw [aux_move_snd cfg isC objW objH x y s rest h1 h2] at hp
          rcases List.mem_cons.mp hp with h | h
          · refine Or.inr ?_
            rw [h]
            show y + objectSpeed cfg isC s.missedCoins < _
            omega
          · rcases ih false s p h with hm | hm
            · exact Or.inl (List.mem_cons_of_mem _ hm)
            · exact Or.inr hm

/-- C2 (amended): a visited object is removed in the same pass exactly
when `y - height ≥ screenHeight` at visit time (missedCoins incremented
first when it is a coin); consequently after an advance every surviving
member either kept its position unchanged (it was skipped following a
removal, so it occurs in the input list) or lies at
`y < screenHeight + height + speed`.  The claimed interval
`[-height, screenHeight)` and the bottom-edge trigger do not hold. -/
theorem C2_advance_amended (cfg : Config) (isC : Bool) (objW objH : ℤ)
    (s : GameState) (l : List (ℤ × ℤ)) :
    (∀ p ∈ (move_objects_aux cfg isC objW objH false s l).2,
        p ∈ l ∨ p.2 < cfg.displayHeight + objH + objectSpeed cfg isC s.missedCoins) ∧
    (∀ x y : ℤ, cfg.displayHeight ≤ y - objH →
        (move_objects_aux cfg isC objW objH false s [(x, y)]).2 = [] ∧
        (move_objects_aux cfg isC objW objH false s [(x, y)]).1.missedCoins =
          (if isC then s.missedCoins + 1 else s.missedCoins)) := by
  constructor
  · exact aux_mem_bound cfg isC objW objH l false s
  · intro x y h
    cases isC <;> simp [move_objects_aux, h]

/-- C2 witness: a coin at (0, 510) with 510 - 20 ≥ 480 is removed by the
pass and bumps missedCoins from 0 to 1. -/
theorem C2_advance_amended_witness :
    (move_objects_aux cfg640 true 20 20 false coinDropState [(0, 510)]).2 = [] ∧
    (move_objects_aux cfg640 true 20 20 false coinDropState [(0, 510)]).1.missedCoins = 1 := by
  have h := (C2_advance_amended cfg640 true 20 20 coinDropState [(0, 510)]).2 0 510 (by decide)
  refine ⟨h.1, ?_⟩
  rw [h.2]
  decide

/-- C8: on a visit that neither removes the object nor detects a
collision, a monster falls by `velocity_y * 2 + missed_coins // 2`
(recomputed from the current state) while a coin falls by the constant
`velocity_y`. -/
theorem C8_speed_scaling (cfg : Config) (s : GameState) (x y objW objH : ℤ)
    (rest : List (ℤ × ℤ))
    (hoff : ¬ cfg.displayHeight ≤ y - objH)
    (hcol : ¬ colliderect x y objW objH s.playerX s.playerY cfg.robotW cfg.robotH) :
    (move_objects_aux cfg false objW objH false s ((x, y) :: rest)).2.head? =
      some (x, y + (cfg.velocityY * 2 + ((s.missedCoins / 2 : ℕ) : ℤ))) ∧
    (move_objects_aux cfg true objW objH false s ((x, y) :: rest)).2.head? =
      some (x, y + cfg.velocityY) := by
  constructor <;> simp [move_objects_aux, hoff, hcol, objectSpeed]

/-- C8 witness: with five missed coins and base velocity 1 the monster
falls by 1*2 + 5//2 = 4 pixels, the coin by 1 pixel. -/
theorem C8_speed_scaling_witness :
    (move_objects_aux cfg640 false 32 32 false midairState [(100, 50)]).2.head? =
      some (100, 54) ∧
    (move_objects_aux cfg640 true 32 32 false midairState [(100, 50)]).2.head? =
      some (100, 51) := by
  have h := C8_speed_scaling cfg640 midairState 100 50 32 32 [] (by decide) (by decide)
  constructor
  · rw [h.1]; decide
  · rw [h.2]; decide

/-- C9: a spawn call with draw ≤ prob appends exactly one object at the
end of the list, at y = -objectHeight and at the x provided by
`randint(0, screenWidth - objectWidth)` (hence within that interval), and
is a no-op otherwise; the spawn phase writes no state besides the two
object lists. -/
theorem C9_spawn (l : List (ℤ × ℤ)) (W objW objH : ℤ) (draw prob : ℚ) (xr : ℤ)
    (h0 : 0 ≤ xr) (h1 : xr ≤ W - objW) :
    ((draw ≤ prob →
        generate_image l objH draw xr prob = l ++ [(xr, -objH)] ∧ 0 ≤ xr ∧ xr ≤ W - objW) ∧
     (¬ draw ≤ prob → generate_image l objH draw xr prob = l)) ∧
    (∀ (cfg : Config) (s : GameState) (inp : FrameInput),
        (spawn_phase cfg s inp).playerX = s.playerX ∧
        (spawn_phase cfg s inp).playerY = s.playerY ∧
        (spawn_phase cfg s inp).toLeft = s.toLeft ∧
        (spawn_phase cfg s inp).toRight = s.toRight ∧
        (spawn_phase cfg s inp).score = s.score ∧
        (spawn_phase cfg s inp).missedCoins = s.missedCoins ∧
        (spawn_phase cfg s inp).playerLives = s.playerLives) := by
  refine ⟨⟨fun h => ⟨?_, h0, h1⟩, fun h => ?_⟩, fun cfg s inp => ?_⟩
  · simp [generate_image, h]
  · simp [generate_image, h]
  · simp [spawn_phase]

/-- C9 witness: draw 1/5 ≤ 1/4 appends (7, -20) to the list. -/
theorem C9_spawn_witness :
    generate_image [(1, 2)] 20 (mkRat 1 5) 7 (mkRat 1 4) = [(1, 2), (7, -20)] := by
  have h := ((C9_spawn [(1, 2)] 640 20 20 (mkRat 1 5) (mkRat 1 4) 7
    (by decide) (by decide)).1).1 (by decide)
  exact h.1

/-- Once the player position has been reset, the remainder of a monster
pass keeps it at the reset position: no later branch of the loop writes
any other position. -/
theorem aux_preserves_reset (cfg : Config) (objW objH : ℤ) :
    ∀ (l : List (ℤ × ℤ)) (sk : Bool) (t : GameState),
      t.playerX = 0 → t.playerY = cfg.displayHeight - cfg.robotH →
      (move_objects_aux cfg false objW objH sk t l).1.playerX = 0 ∧
      (move_objects_aux cfg false objW objH sk t l).1.playerY =
        cfg.displayHeight - cfg.robotH := by
  intro l
  induction l with
  | nil =>
    intro sk t h1 h2
    rw [aux_nil_fst]
    exact ⟨h1, h2⟩
  | cons o rest ih =>
    intro sk t h1 h2
    cases sk with
    | true =>
      rw [aux_skip_fst]
      exact ih false t h1 h2
    | false =>
      obtain ⟨x, y⟩ := o
      by_cases ha : cfg.displayHeight ≤ y - objH
      · rw [aux_off cfg false objW objH x y t rest ha]
        exact ih true _ h1 h2
      · by_cases hb : colliderect x y objW objH t.playerX t.playerY cfg.robotW cfg.robotH
        · rw [aux_hit cfg false objW objH x y t rest ha hb]
          refine ih true _ ?_ ?_ <;> simp [reset_player_position]
        · rw [aux_move_fst cfg false objW objH x y t rest ha hb]
          exact ih false t h1 h2

/-- C10: when a visited monster collides, the pass continues over the rest
of the list (in skip mode, as after any pop) with the player already moved
to (0, screenHeight - robotHeight), flags cleared and one life subtracted,
so every later collision test of the same call reads the reset position;
and the reset position persists to the end of the pass. -/
theorem C10_mid_pass_reset (cfg : Config) (s : GameState) (x y objW objH : ℤ)
    (rest : List (ℤ × ℤ))
    (hoff : ¬ cfg.displayHeight ≤ y - objH)
    (hcol : colliderect x y objW objH s.playerX s.playerY cfg.robotW cfg.robotH) :
    (move_objects_aux cfg false objW objH false s ((x, y) :: rest) =
      move_objects_aux cfg false objW objH true
        { reset_player_position cfg s with playerLives := s.playerLives - 1 } rest) ∧
    (∀ (sk : Bool) (t : GameState) (l : List (ℤ × ℤ)),
        t.playerX = 0 → t.playerY = cfg.displayHeight - cfg.robotH →
        (move_objects_aux cfg false objW objH sk t l).1.playerX = 0 ∧
        (move_objects_aux cfg false objW objH sk t l).1.playerY =
          cfg.displayHeight - cfg.robotH) := by
  constructor
  · simp [move_objects_aux, hoff, hcol]
  · intro sk t l h1 h2
    exact aux_preserves_reset cfg objW objH l sk t h1 h2

/-- C10 witness: in `hitState` the first monster overlaps the player at
x = 4; the pass continues on the remaining two monsters with the player
reset to (0, 4) and one life gone. -/
theorem C10_mid_pass_reset_witness :
    move_objects_aux cfgTiny false 2 2 false hitState [(4, 8), (18, 6), (0, 4)] =
      move_objects_aux cfgTiny false 2 2 true
        { reset_player_position cfgTiny hitState with
            playerLives := hitState.playerLives - 1 } [(18, 6), (0, 4)] := by
  exact (C10_mid_pass_reset cfgTiny hitState 4 8 2 2 [(18, 6), (0, 4)]
    (by decide) (by decide)).1

/-- One `move_player` call preserves the player-x invariant, whatever the
movement flags say. -/
theorem move_player_PlayerXInv (cfg : Config) (s : GameState)
    (h : PlayerXInv cfg s.playerX) : PlayerXInv cfg (move_player cfg s).playerX := by
  obtain ⟨h0, he, hb⟩ := h
  unfold PlayerXInv
  simp only [move_player]
  by_cases h1 : s.toRight = true ∧ s.playerX + cfg.robotW < cfg.displayWidth
  · rw [if_pos h1]
    dsimp only
    by_cases h2 : s.toLeft = true ∧ s.playerX + 2 > 0
    · rw [if_pos h2]
      dsimp only
      obtain ⟨-, h1b⟩ := h1
      omega
    · rw [if_neg h2]
      dsimp only
      obtain ⟨-, h1b⟩ := h1
      omega
  · rw [if_neg h1]
    by_cases h2 : s.toLeft = true ∧ s.playerX > 0
    · rw [if_pos h2]
      dsimp only
      obtain ⟨-, h2b⟩ := h2
      omega
    · rw [if_neg h2]
      omega

/-- Every player operation (move with arbitrary flags, or a reset)
preserves the player-x invariant. -/
theorem applyPOp_PlayerXInv (cfg : Config) (s : GameState) (op : POp)
    (h : PlayerXInv cfg s.playerX) : PlayerXInv cfg (applyPOp cfg s op).playerX := by
  cases op with
  | move l r =>
    exact move_player_PlayerXInv cfg { s with toLeft := l, toRight := r } h
  | reset =>
    simp [applyPOp, PlayerXInv, reset_player_position]

/-- The player-x invariant is preserved by any sequence of player
operations. -/
theorem foldl_applyPOp_PlayerXInv (cfg : Config) :
    ∀ (ops : List POp) (s : GameState), PlayerXInv cfg s.playerX →
      PlayerXInv cfg (ops.foldl (applyPOp cfg) s).playerX := by
  intro ops
  induction ops with
  | nil =>
    intro s h
    exact h
  | cons op ops ih =>
    intro s h
    rw [List.foldl_cons]
    exact ih _ (applyPOp_PlayerXInv cfg s op h)

/-- C3 (amended): in every reachable state the player's x coordinate
satisfies 0 ≤ x ≤ max 0 (screenWidth − robotWidth + 1).  Because the
pre-move bound check `x + robotW < displayWidth` is done before adding 2,
x can legitimately land one pixel past screenWidth − robotWidth whenever
screenWidth − robotWidth is odd, so the claimed upper bound
screenWidth − robotWidth itself does not hold for every configuration. -/
theorem C3_amended_bounds (cfg : Config) (ops : List POp) :
    0 ≤ (runPlayerOps cfg ops).playerX ∧
    (runPlayerOps cfg ops).playerX ≤ max 0 (cfg.displayWidth - cfg.robotW + 1) := by
  unfold runPlayerOps
  have h := foldl_applyPOp_PlayerXInv cfg ops (initState cfg)
    (by simp [initState, new_game, reset_player_position, PlayerXInv])
  obtain ⟨h0, -, hb⟩ := h
  refine ⟨h0, ?_⟩
  rcases hb with hb | hb
  · rw [hb]
    exact le_max_left 0 _
  · exact le_trans hb (le_max_right _ _)

/-- Non-restart events only touch the movement flags: every other field of
the state is unchanged. -/
theorem handle_event_fields (cfg : Config) (s : GameState) (e : Ev) (he : e ≠ Ev.f1) :
    (handle_event cfg s e).playerX = s.playerX ∧
    (handle_event cfg s e).playerY = s.playerY ∧
    (handle_event cfg s e).coins = s.coins ∧
    (handle_event cfg s e).monsters = s.monsters ∧
    (handle_event cfg s e).score = s.score ∧
    (handle_event cfg s e).missedCoins = s.missedCoins ∧
    (handle_event cfg s e).playerLives = s.playerLives := by
  cases e <;> first
    | exact absurd rfl he
    | exact ⟨rfl, rfl, rfl, rfl, rfl, rfl, rfl⟩

/-- An event queue without the restart key leaves everything but the
movement flags unchanged. -/
theorem examine_events_fields (cfg : Config) :
    ∀ (evs : List Ev) (s : GameState), (∀ e ∈ evs, e ≠ Ev.f1) →
      (examine_events cfg s evs).playerX = s.playerX ∧
      (examine_events cfg s evs).playerY = s.playerY ∧
      (examine_events cfg s evs).coins = s.coins ∧
      (examine_events cfg s evs).monsters = s.monsters ∧
      (examine_events cfg s evs).score = s.score ∧
      (examine_events cfg s evs).missedCoins = s.missedCoins ∧
      (examine_events cfg s evs).playerLives = s.playerLives := by
  intro evs
  induction evs with
  | nil =>
    intro s h
    exact ⟨rfl, rfl, rfl, rfl, rfl, rfl, rfl⟩
  | cons e evs ih =>
    intro s h
    have h1 := handle_event_fields cfg s e (h e (List.mem_cons_self e evs))
    have h2 := ih (handle_event cfg s e) (fun e2 he2 => h e2 (List.mem_cons_of_mem e he2))
    unfold examine_events at *
    rw [List.foldl_cons]
    exact ⟨h2.1.trans h1.1, h2.2.1.trans h1.2.1, h2.2.2.1.trans h1.2.2.1,
      h2.2.2.2.1.trans h1.2.2.2.1, h2.2.2.2.2.1.trans h1.2.2.2.2.1,
      h2.2.2.2.2.2.1.trans h1.2.2.2.2.2.1, h2.2.2.2.2.2.2.trans h1.2.2.2.2.2.2⟩

/-- A frame starting with zero lives only processes its events: the
simulation part of the step is skipped entirely. -/
theorem step_frozen (cfg : Config) (s : GameState) (inp : FrameInput)
    (hl : s.playerLives = 0) (hf : Ev.f1 ∉ inp.events) :
    (step cfg s inp).playerX = s.playerX ∧
    (step cfg s inp).playerY = s.playerY ∧
    (step cfg s inp).coins = s.coins ∧
    (step cfg s inp).monsters = s.monsters ∧
    (step cfg s inp).score = s.score ∧
    (step cfg s inp).missedCoins = s.missedCoins ∧
    (step cfg s inp).playerLives = s.playerLives := by
  have hne : ∀ e ∈ inp.events, e ≠ Ev.f1 := fun e he heq => hf (heq ▸ he)
  have hev := examine_events_fields cfg inp.events s hne
  have hgo : game_over (examine_events cfg s inp.events) = true := by
    simp [game_over, hev.2.2.2.2.2.2, hl]
  have hstep : step cfg s inp = examine_events cfg s inp.events := by
    simp only [step]
    rw [if_pos hgo]
  rw [hstep]
  exact hev

/-- Any number of frames starting from zero lives leaves everything but
the movement flags unchanged, as long as no restart key arrives. -/
theorem steps_frozen (cfg : Config) :
    ∀ (inputs : List FrameInput) (s : GameState), s.playerLives = 0 →
      (∀ inp ∈ inputs, Ev.f1 ∉ inp.events) →
      (inputs.foldl (step cfg) s).playerX = s.playerX ∧
      (inputs.foldl (step cfg) s).playerY = s.playerY ∧
      (inputs.foldl (step cfg) s).coins = s.coins ∧
      (inputs.foldl (step cfg) s).monsters = s.monsters ∧
      (inputs.foldl (step cfg) s).score = s.score ∧
      (inputs.foldl (step cfg) s).missedCoins = s.missedCoins ∧
      (inputs.foldl (step cfg) s).playerLives = s.playerLives := by
  intro inputs
  induction inputs with
  | nil =>
    intro s hl hf
    exact ⟨rfl, rfl, rfl, rfl, rfl, rfl, rfl⟩
  | cons inp inputs ih =>
    intro s hl hf
    have h1 := step_frozen cfg s inp hl (hf inp (List.mem_cons_self inp inputs))
    have h2 := ih (step cfg s inp) (h1.2.2.2.2.2.2.trans hl)
      (fun i hi => hf i (List.mem_cons_of_mem inp hi))
    rw [List.foldl_cons]
    exact ⟨h2.1.trans h1.1, h2.2.1.trans h1.2.1, h2.2.2.1.trans h1.2.2.1,
      h2.2.2.2.1.trans h1.2.2.2.1, h2.2.2.2.2.1.trans h1.2.2.2.2.1,
      h2.2.2.2.2.2.1.trans h1.2.2.2.2.2.1, h2.2.2.2.2.2.2.trans h1.2.2.2.2.2.2⟩

/-- C6: once lives equals 0, any number of further steps with any inputs
that do not request a restart leaves score, missedCoins, the coin list,
the monster list and the player position unchanged. -/
theorem C6_freeze (cfg : Config) (s : GameState) (inputs : List FrameInput)
    (hl : s.playerLives = 0) (hf : ∀ inp ∈ inputs, Ev.f1 ∉ inp.events) :
    (inputs.foldl (step cfg) s).score = s.score ∧
    (inputs.foldl (step cfg) s).missedCoins = s.missedCoins ∧
    (inputs.foldl (step cfg) s).coins = s.coins ∧
    (inputs.foldl (step cfg) s).monsters = s.monsters ∧
    (inputs.foldl (step cfg) s).playerX = s.playerX ∧
    (inputs.foldl (step cfg) s).playerY = s.playerY := by
  obtain ⟨h1, h2, h3, h4, h5, h6, h7⟩ := steps_frozen cfg inputs s hl hf
  exact ⟨h5, h6, h3, h4, h1, h2⟩

/-- C6 witness: a nontrivial game-over state of the tiny configuration is
unchanged by two frames of key presses, spawn windows and draws. -/
theorem C6_freeze_witness :
    (frozenScript.foldl (step cfgTiny) frozenState).score = frozenState.score ∧
    (frozenScript.foldl (step cfgTiny) frozenState).missedCoins = frozenState.missedCoins ∧
    (frozenScript.foldl (step cfgTiny) frozenState).coins = frozenState.coins ∧
    (frozenScript.foldl (step cfgTiny) frozenState).monsters = frozenState.monsters ∧
    (frozenScript.foldl (step cfgTiny) frozenState).playerX = frozenState.playerX ∧
    (frozenScript.foldl (step cfgTiny) frozenState).playerY = frozenState.playerY :=
  C6_freeze cfgTiny frozenState frozenScript rfl (by decide)

end CoinCollector
